import Mathlib

/-!
Verification of the aurora-postgres store adapter.

The source is TypeScript; this file is a shallow embedding of the parts of
the code the claims are about.  JS numbers that the code only ever treats as
integers (limits, `longValue` payloads) are modelled as `Nat`/`Int`; the
executor's rows are modelled as the decoded string values the code reads off
them; `JSON.parse` of a stored item text is modelled as the text itself (the
claims never inspect the decoded structure, only which row's text is
returned).  Fallible paths (JS property access on `undefined`, i.e. a thrown
`TypeError`) are modelled with `Option`: a `none` result of a whole operation
models the exception.
-/

namespace AuroraStore

/-- Wire field representation (`RDSDataService.Field`): tagged union of the
primitive value kinds used for bound parameters.  Numeric payloads are
modelled as `Int`. -/
inductive AuroraField where
  | stringValue (s : String)
  | longValue (n : Int)
  | doubleValue (n : Int)
  | booleanValue (b : Bool)
  | isNullValue
deriving DecidableEq, Repr

/-- A bound SQL parameter (`RDSDataService.SqlParameter`): a name, a wire
value, and an optional type hint. -/
structure SqlParameter where
  name : String
  value : AuroraField
  typeHint : Option String := none
deriving DecidableEq, Repr

/-- `auroraStringValue` from values.ts. -/
def auroraStringValue (value : String) : AuroraField := .stringValue value

/-- `auroraLongValue` from values.ts. -/
def auroraLongValue (value : Int) : AuroraField := .longValue value

/-- `auroraDoubleValue` from values.ts. -/
def auroraDoubleValue (value : Int) : AuroraField := .doubleValue value

/-- `auroraBooleanValue` from values.ts. -/
def auroraBooleanValue (value : Bool) : AuroraField := .booleanValue value

/-- `auroraNullable` from values.ts: `value === null` (modelled as `none`)
maps to the explicit null wire value, any other value is delegated to the
wrapped codec. -/
def auroraNullable {T : Type} (higher : T → AuroraField) :
    Option T → AuroraField
  | none => .isNullValue
  | some value => higher value

/-- The point lookup `get`: the SQL text it sends. -/
def getSql (table : String) : String :=
  "SELECT item FROM \"" ++ table ++ "\" WHERE key = :key"

/-- The point lookup `get`: the parameter list it binds. -/
def getParameters (key : String) : List SqlParameter :=
  [{ name := "key", value := .stringValue key }]

/-- The result-processing tail of `get`: the executor's records are modelled
as one optional string value per returned row (the `stringValue` of the
single selected column).  `result.records?.length` truthy picks the first
row; `if (json)` returns the parsed item only for a non-empty text, and the
function otherwise falls through to `undefined` (`none`). -/
def getResult (records : Option (List (Option String))) : Option String :=
  match records with
  | none => none
  | some [] => none
  | some (json :: _) =>
    match json with
    | some j => if j ≠ "" then some j else none
    | none => none

section Filters

variable {T : Type}

/-- `ExactFilter` (from the imes query model): the comparator subset of an
exact-match filter field; an absent or `undefined` comparator is `none`. -/
structure ExactFilter (T : Type) where
  eq : Option T := none
  ne : Option T := none
  in_ : Option (List T) := none

/-- `OrdFilter`: the comparator subset of an ordered filter field. -/
structure OrdFilter (T : Type) where
  eq : Option T := none
  gt : Option T := none
  gte : Option T := none
  lt : Option T := none
  lte : Option T := none

/-- Result shape of the `filterParams` methods: a list of WHERE fragments and
the bound parameters. -/
structure FilterParamsResult where
  whereList : List String
  parameters : List SqlParameter
deriving DecidableEq, Repr

/-- `AuroraPostgresExactIndex.filterParams`: translated clause for clause
from the source (eq, then ne, then in), including the positional parameter
names of the `in` expansion. -/
def exactFilterParams (parameterValue : T → AuroraField) (name : String)
    (filter : ExactFilter T) : FilterParamsResult :=
  let s0 : FilterParamsResult := { whereList := [], parameters := [] }
  let s1 := match filter.eq with
    | some v =>
      { s0 with
        whereList := s0.whereList ++ [name ++ " = :" ++ name ++ "__eq"],
        parameters := s0.parameters ++
          [{ name := name ++ "__eq", value := parameterValue v }] }
    | none => s0
  let s2 := match filter.ne with
    | some v =>
      { s1 with
        whereList := s1.whereList ++ [name ++ " <> :" ++ name ++ "__ne"],
        parameters := s1.parameters ++
          [{ name := name ++ "__ne", value := parameterValue v }] }
    | none => s1
  match filter.in_ with
  | some vs =>
    let paramNames := (vs.enum).map fun p => name ++ "__in_" ++ toString p.1
    { whereList := s2.whereList ++
        [name ++ " IN (:" ++ String.intercalate ", :" paramNames ++ ")"],
      parameters := s2.parameters ++
        (vs.enum).map fun p =>
          { name := name ++ "__in_" ++ toString p.1,
            value := parameterValue p.2 } }
  | none => s2

/-- `AuroraPostgresOrdIndex.filterParams`: translated clause for clause from
the source.  Note the parameter names exactly as the source writes them:
`__eq` for eq but a single underscore for gt, gte, lt and lte. -/
def ordFilterParams (parameterValue : T → AuroraField) (name : String)
    (filter : OrdFilter T) : FilterParamsResult :=
  let s0 : FilterParamsResult := { whereList := [], parameters := [] }
  let s1 := match filter.eq with
    | some v =>
      { s0 with
        whereList := s0.whereList ++ [name ++ " = :" ++ name ++ "__eq"],
        parameters := s0.parameters ++
          [{ name := name ++ "__eq", value := parameterValue v }] }
    | none => s0
  let s2 := match filter.gt with
    | some v =>
      { s1 with
        whereList := s1.whereList ++ [name ++ " > :" ++ name ++ "_gt"],
        parameters := s1.parameters ++
          [{ name := name ++ "_gt", value := parameterValue v }] }
    | none => s1
  let s3 := match filter.gte with
    | some v =>
      { s2 with
        whereList := s2.whereList ++ [name ++ " >= :" ++ name ++ "_gte"],
        parameters := s2.parameters ++
          [{ name := name ++ "_gte", value := parameterValue v }] }
    | none => s2
  let s4 := match filter.lt with
    | some v =>
      { s3 with
        whereList := s3.whereList ++ [name ++ " < :" ++ name ++ "_lt"],
        parameters := s3.parameters ++
          [{ name := name ++ "_lt", value := parameterValue v }] }
    | none => s3
  match filter.lte with
  | some v =>
    { s4 with
      whereList := s4.whereList ++ [name ++ " <= :" ++ name ++ "_lte"],
      parameters := s4.parameters ++
        [{ name := name ++ "_lte", value := parameterValue v }] }
  | none => s4

end Filters

section Store

variable {I V : Type}

/-- Result shape of one `AuroraPostgresFilterClause`: a single WHERE fragment
and its bound parameters (the clause functions held in the store's `filters`
collection). -/
structure FilterClauseResult where
  whereSql : String
  parameters : List SqlParameter
deriving DecidableEq, Repr

/-- The store's `filters` collection: per declared field name, the declared
comparator names each mapped to its clause function.  JS object iteration
order is insertion order, modelled by the list order. -/
def StoreFilters (V : Type) :=
  List (String × List (String × (V → FilterClauseResult)))

/-- A `find` query: optional cursor, optional numeric limit, optional filter
given as field name to (comparator name to value); a comparator absent from
the entry models both an absent and an `undefined` comparator, which the
code treats identically (`!== undefined`). -/
structure FindQuery (V : Type) where
  cursor : Option String := none
  limit : Option Nat := none
  filter : Option (List (String × List (String × V))) := none

/-- The cursor part of `find`: `if (query.cursor)` is JS truthiness, so an
absent cursor and the empty-string cursor both contribute nothing. -/
def findCursorParts (cursor : Option String) :
    List String × List SqlParameter :=
  match cursor with
  | some s =>
    if s ≠ "" then
      (["key > :key"], [{ name := "key", value := .stringValue s }])
    else ([], [])
  | none => ([], [])

/-- One iteration of `find`'s inner comparator loop: a declared comparator
whose value is defined in the query entry appends its clause's fragment and
parameters; an absent or `undefined` one leaves the accumulator unchanged. -/
def findComparatorStep (entry : List (String × V))
    (acc2 : List String × List SqlParameter)
    (cc : String × (V → FilterClauseResult)) :
    List String × List SqlParameter :=
  match List.lookup cc.1 entry with
  | none => acc2
  | some v =>
    let c := cc.2 v
    (acc2.1 ++ [c.whereSql], acc2.2 ++ c.parameters)

/-- One iteration of `find`'s outer filter loop, for one declared field:
look the field up in the query's filter, and for each declared comparator
with a defined value append that clause's fragment and parameters. -/
def findFilterStep (qf : List (String × List (String × V)))
    (acc : List String × List SqlParameter)
    (fc : String × List (String × (V → FilterClauseResult))) :
    List String × List SqlParameter :=
  match List.lookup fc.1 qf with
  | none => acc
  | some entry => fc.2.foldl (findComparatorStep entry) acc

/-- The WHERE fragment list and parameter list `find` accumulates before
assembling the SQL text. -/
def findWhereParams (filters : StoreFilters V) (query : FindQuery V) :
    List String × List SqlParameter :=
  let base := findCursorParts query.cursor
  match query.filter with
  | none => base
  | some qf => List.foldl (findFilterStep qf) base filters

/-- The LIMIT suffix of the scan statement: with a numeric limit `l` the
code appends a limit of `l + 1` (overfetch by one), otherwise nothing. -/
def limitSuffix : Option Nat → String
  | some l => " LIMIT " ++ toString (l + 1)
  | none => ""

/-- The full SQL text `find` sends. -/
def findSql (table : String) (filters : StoreFilters V)
    (query : FindQuery V) : String :=
  let w := (findWhereParams filters query).1
  let s0 := "SELECT key,item FROM \"" ++ table ++ "\""
  let s1 :=
    if w.length ≠ 0 then s0 ++ " WHERE " ++ String.intercalate " AND " w
    else s0
  s1 ++ " ORDER BY key" ++ limitSuffix query.limit

/-- The request `find` issues: SQL text and bound parameters. -/
def findRequest (table : String) (filters : StoreFilters V)
    (query : FindQuery V) : String × List SqlParameter :=
  (findSql table filters query, (findWhereParams filters query).2)

/-- JS array access `l[i]` for a possibly negative integer index. -/
def listGetInt {α : Type} (l : List α) (i : Int) : Option α :=
  if i < 0 then none else l.get? i.toNat

/-- The paginated result `find` builds. -/
structure FindResult where
  cursor : Option String
  edges : List (String × String)
  items : List String
deriving DecidableEq, Repr

/-- The result-processing tail of `find`: executor rows modelled as
(key text, item text) pairs.  With a limit `l` and more than `l` returned
rows, the cursor is read from the row at integer index `l - 1`; a `none`
result models the `TypeError` the code throws when that access is out of
bounds (at `l = 0` the index is `-1`).  With a limit the rows are then cut
to `slice(0, l)`; the edges pair each kept row's key with its item, and the
items are the edges' nodes. -/
def findFromRecords (limit : Option Nat) (records : List (String × String)) :
    Option FindResult :=
  match limit with
  | none =>
    some { cursor := none, edges := records, items := records.map Prod.snd }
  | some l =>
    let cursorRes : Option (Option String) :=
      if records.length > l then
        match listGetInt records ((l : Int) - 1) with
        | none => none
        | some r => some (some r.1)
      else some none
    match cursorRes with
    | none => none
    | some c =>
      let records2 := records.take l
      some { cursor := c, edges := records2, items := records2.map Prod.snd }

/-- The SQL text `getMany` sends. -/
def getManySql (table : String) (keys : List String) : String :=
  let keyNames :=
    String.intercalate ", " ((keys.enum).map fun p => ":key" ++ toString p.1)
  "SELECT key,item FROM \"" ++ table ++ "\" WHERE key in (" ++ keyNames ++ ")"

/-- The parameter list `getMany` binds: one positionally named parameter per
input key, in input order. -/
def getManyParameters (keys : List String) : List SqlParameter :=
  (keys.enum).map fun p =>
    { name := "key" ++ toString p.1, value := .stringValue p.2 }

/-- The `reduce` in `getMany` building the key-to-item lookup: executor rows
are (key field, item field) with optional string values; a row enters the
lookup only when both string values are present and truthy (non-empty), and
a later row overwrites an earlier one with the same key. -/
def getManyLookupStep (lookup : String → Option String)
    (row : Option String × Option String) : String → Option String :=
  match row with
  | (some k, some v) =>
    if k ≠ "" ∧ v ≠ "" then fun x => if x = k then some v else lookup x
    else lookup
  | _ => lookup

def getManyLookup (records : List (Option String × Option String)) :
    String → Option String :=
  records.foldl getManyLookupStep (fun _ => none)

/-- The value `getMany` resolves with: no records at all gives all-absent;
otherwise each input key is projected through the lookup. -/
def getManyResult (keys : List String)
    (records : Option (List (Option String × Option String))) :
    List (Option String) :=
  match records with
  | none => keys.map fun _ => none
  | some rs => keys.map (getManyLookup rs)

/-- An index descriptor (`AuroraPostgresIndex`): declared schema type, codec,
optional type hint, and value picker.  The per-index value types (TS `any`)
are modelled by one carrier type `V`. -/
structure AuroraPostgresIndexDef (I V : Type) where
  dataType : String
  value : V → AuroraField
  typeHint : Option String := none
  pick : I → V

/-- The pieces `put` accumulates before assembling its upsert statement. -/
structure PutStatement where
  columns : List String
  values : List String
  setList : List String
  parameters : List SqlParameter

/-- The accumulation loop of `put`: starts from the key/item columns and
appends, per declared index in declaration order, the index's column name,
value placeholder, conflict-update assignment, and bound parameter.  One
step of the loop: -/
def putStep (item : I) (st : PutStatement)
    (p : String × AuroraPostgresIndexDef I V) : PutStatement :=
  { columns := st.columns ++ [p.1],
    values := st.values ++ [":" ++ p.1],
    setList := st.setList ++
      ["\"" ++ p.1 ++ "\" = Excluded.\"" ++ p.1 ++ "\""],
    parameters := st.parameters ++
      [{ name := p.1, value := p.2.value (p.2.pick item),
         typeHint := p.2.typeHint }] }

def putBuild (getItemKey : I → String) (stringifyItem : I → String)
    (indexes : List (String × AuroraPostgresIndexDef I V)) (item : I) :
    PutStatement :=
  indexes.foldl (putStep item)
    { columns := ["key", "item"],
      values := [":key, :item::jsonb"],
      setList := ["item = Excluded.item"],
      parameters := [
        { name := "key", value := .stringValue (getItemKey item) },
        { name := "item", value := .stringValue (stringifyItem item) }] }

/-- The SQL text `put` sends, assembled from the accumulated pieces. -/
def putSql (table : String) (st : PutStatement) : String :=
  "\n  INSERT INTO \"" ++ table ++ "\" (" ++
    String.intercalate ", " (st.columns.map fun n => "\"" ++ n ++ "\"") ++
    ")\n  VALUES(" ++ String.intercalate ", " st.values ++
    ")\n  ON CONFLICT (key)\n  DO UPDATE SET " ++
    String.intercalate ", " st.setList ++ "\n"

/-- The column definition list of `setup`'s CREATE TABLE: key and item
columns followed by one column per declared index, typed per its
declaration.  The per-index column definition string: -/
def setupColumnDef (p : String × AuroraPostgresIndexDef I V) : String :=
  "\"" ++ p.1 ++ "\" " ++ p.2.dataType

def setupColumns (indexes : List (String × AuroraPostgresIndexDef I V)) :
    List String :=
  indexes.foldl (fun cols p => cols ++ [setupColumnDef p])
    ["\"key\" varchar(64) PRIMARY KEY", "\"item\" jsonb"]

/-- The SQL text `setup` sends. -/
def setupSql (table : String)
    (indexes : List (String × AuroraPostgresIndexDef I V)) : String :=
  "CREATE TABLE \"" ++ table ++ "\" (" ++
    String.intercalate ", " (setupColumns indexes) ++ ")"

/-- A persisted table row: key, item text, and the per-index column
values. -/
structure PersistedRow where
  key : String
  itemText : String
  indexCols : List (String × AuroraField)
deriving DecidableEq, Repr

/-- The row `put(item)` stores: key and item text from the item, and every
declared index column from the item's picked, encoded value — the same
values the statement binds. -/
def putRow (getItemKey : I → String) (stringifyItem : I → String)
    (indexes : List (String × AuroraPostgresIndexDef I V)) (item : I) :
    PersistedRow :=
  { key := getItemKey item,
    itemText := stringifyItem item,
    indexCols := indexes.map fun p => (p.1, p.2.value (p.2.pick item)) }

/-- Store a row under a key in a table modelled as an association list with
unique keys: replace the existing binding or append a new one. -/
def dbSet (db : List (String × PersistedRow)) (k : String)
    (r : PersistedRow) : List (String × PersistedRow) :=
  match db with
  | [] => [(k, r)]
  | (k1, r1) :: rest =>
    if k1 = k then (k, r) :: rest else (k1, r1) :: dbSet rest k r

/-- The effect of `put`'s statement on the table, per the statement's own
text: `INSERT ... ON CONFLICT (key) DO UPDATE SET` with `item` and every
declared index column overwritten from the excluded (new) row — so the
statement stores exactly the new row at the item's key, whether or not a row
with that key existed. -/
def applyPut (getItemKey : I → String) (stringifyItem : I → String)
    (indexes : List (String × AuroraPostgresIndexDef I V))
    (db : List (String × PersistedRow)) (item : I) :
    List (String × PersistedRow) :=
  dbSet db (getItemKey item) (putRow getItemKey stringifyItem indexes item)

end Store

section Lemmas

variable {I V : Type}

theorem foldl_append_singleton {α β : Type} (f : α → β) (l : List α)
    (init : List β) :
    l.foldl (fun acc x => acc ++ [f x]) init = init ++ l.map f := by
  induction l generalizing init with
  | nil => simp
  | cons a t ih => simp [ih]

theorem putBuild_eq (g : I → String) (e : I → String)
    (indexes : List (String × AuroraPostgresIndexDef I V)) (item : I) :
    putBuild g e indexes item =
      { columns := ["key", "item"] ++ indexes.map Prod.fst,
        values := [":key, :item::jsonb"] ++ indexes.map (fun p => ":" ++ p.1),
        setList := ["item = Excluded.item"] ++
          indexes.map (fun p => "\"" ++ p.1 ++ "\" = Excluded.\"" ++ p.1 ++ "\""),
        parameters :=
          [{ name := "key", value := .stringValue (g item) },
           { name := "item", value := .stringValue (e item) }] ++
          indexes.map (fun p =>
            { name := p.1, value := p.2.value (p.2.pick item),
              typeHint := p.2.typeHint }) } := by
  have step : ∀ (l : List (String × AuroraPostgresIndexDef I V))
      (st : PutStatement),
      l.foldl (putStep item) st =
        { columns := st.columns ++ l.map Prod.fst,
          values := st.values ++ l.map (fun p => ":" ++ p.1),
          setList := st.setList ++
            l.map (fun p => "\"" ++ p.1 ++ "\" = Excluded.\"" ++ p.1 ++ "\""),
          parameters := st.parameters ++
            l.map (fun p =>
              { name := p.1, value := p.2.value (p.2.pick item),
                typeHint := p.2.typeHint }) } := by
    intro l
    induction l with
    | nil => intro st; simp
    | cons a t ih => intro st; simp [ih, putStep]
  simpa [putBuild] using step indexes _

theorem setupColumns_eq (indexes : List (String × AuroraPostgresIndexDef I V)) :
    setupColumns indexes =
      ["\"key\" varchar(64) PRIMARY KEY", "\"item\" jsonb"] ++
        indexes.map setupColumnDef := by
  simpa [setupColumns] using
    foldl_append_singleton (setupColumnDef (I := I) (V := V)) indexes _

theorem dbSet_lookup (db : List (String × PersistedRow)) (k : String)
    (r : PersistedRow) : List.lookup k (dbSet db k r) = some r := by
  induction db with
  | nil => simp [dbSet]
  | cons a t ih =>
    by_cases h : a.1 = k
    · simp [dbSet, h]
    · simp [dbSet, h, List.lookup, beq_false_of_ne (Ne.symm h), ih]

theorem dbSet_idem (db : List (String × PersistedRow)) (k : String)
    (r : PersistedRow) : dbSet (dbSet db k r) k r = dbSet db k r := by
  induction db with
  | nil => simp [dbSet]
  | cons a t ih =>
    by_cases h : a.1 = k
    · simp [dbSet, h]
    · simp [dbSet, h, ih]

end Lemmas

section ClaimTheorems

variable {I V : Type}

/-- Claim C8: the nullable combinator `auroraNullable c` maps `null`
(modelled as `none`) to the explicit null wire value and every non-null
input `v` to `c v` unchanged; being a total Lean function it is total over
its declared domain. -/
theorem auroraNullable_null_and_delegate {T : Type} (c : T → AuroraField) :
    auroraNullable c none = AuroraField.isNullValue ∧
    ∀ v : T, auroraNullable c (some v) = c v := by
  exact ⟨rfl, fun v => rfl⟩

/-- Claim C7: when the statement executor returns zero rows (no records
field at all, or an empty record list) for the point lookup, `get` resolves
with the explicit absent result `none`; the embedding is a total function,
so this path raises nothing. -/
theorem get_zero_rows_absent :
    getResult none = none ∧ getResult (some []) = none := by
  exact ⟨rfl, rfl⟩

/-- Claim C5: the extra columns beyond key/item that `put` writes — the
column-name list of its INSERT and the names of its bound parameters — are
exactly the declared index names in declaration order, and `setup`'s CREATE
TABLE declares exactly those same names, each with its declared data type.
So the write surface and the schema surface agree. -/
theorem put_setup_column_surfaces_agree (g : I → String) (e : I → String)
    (indexes : List (String × AuroraPostgresIndexDef I V)) (item : I) :
    ((putBuild g e indexes item).columns.drop 2 = indexes.map Prod.fst) ∧
    ((putBuild g e indexes item).parameters.map SqlParameter.name =
      (putBuild g e indexes item).columns) ∧
    ((setupColumns indexes).drop 2 =
      (((putBuild g e indexes item).columns.drop 2).zip
        (indexes.map fun p => p.2.dataType)).map
          (fun p => "\"" ++ p.1 ++ "\" " ++ p.2)) := by
  refine ⟨?_, ?_, ?_⟩
  · simp [putBuild_eq]
  · simp [putBuild_eq]
  · rw [setupColumns_eq, putBuild_eq]
    simp only [List.append_assoc, List.drop_append_eq_append_drop,
      List.drop, List.length_append]
    simp [List.zip_map', setupColumnDef, Function.comp]

/-- Claim C6: `put`'s statement is an upsert whose conflict branch
overwrites the item blob and every declared index column from the excluded
row; consequently its effect stores exactly the item's row at the item's
key, and applying it twice leaves the same table as applying it once. -/
theorem put_upsert_idempotent (g : I → String) (e : I → String)
    (indexes : List (String × AuroraPostgresIndexDef I V))
    (db : List (String × PersistedRow)) (item : I) :
    ((putBuild g e indexes item).setList =
      "item = Excluded.item" ::
        indexes.map (fun p => "\"" ++ p.1 ++ "\" = Excluded.\"" ++ p.1 ++ "\"")) ∧
    (List.lookup (g item) (applyPut g e indexes db item) =
      some (putRow g e indexes item)) ∧
    (applyPut g e indexes (applyPut g e indexes db item) item =
      applyPut g e indexes db item) := by
  refine ⟨by simp [putBuild_eq], ?_, ?_⟩
  · exact dbSet_lookup db (g item) (putRow g e indexes item)
  · exact dbSet_idem db (g item) (putRow g e indexes item)

/-- Claim C2 (divergence witnessed): for the ordered index, an active `gt`
comparator on field `age` binds a parameter named `age_gt` — a single
underscore — not the claimed `age__gt`; the fragment references the same
single-underscore name. -/
theorem ordFilter_gt_param_name_single_underscore :
    (ordFilterParams auroraLongValue "age" { gt := some 45 }) =
      { whereList := ["age > :age_gt"],
        parameters := [{ name := "age_gt", value := .longValue 45 }] } ∧
    "age_gt" ≠ "age__gt" := by
  exact ⟨by decide, by decide⟩

/-- Claim C10: an empty-string cursor is treated exactly like an absent
cursor — `if (query.cursor)` is falsy for the empty string — so the request
`find` issues (SQL text and bound parameters) is identical to the
cursorless request: no keyset clause, no cursor parameter. -/
theorem find_empty_string_cursor_like_absent (table : String)
    (filters : StoreFilters V) (l : Option Nat)
    (f : Option (List (String × List (String × V)))) :
    findRequest table filters { cursor := some "", limit := l, filter := f } =
      findRequest table filters { cursor := none, limit := l, filter := f } := by
  have h : findCursorParts (some "") = findCursorParts none := by
    simp [findCursorParts]
  simp [findRequest, findSql, findWhereParams, h]

/-- Claim C9: for a query with limit 0, as soon as the executor returns at
least one row the cursor computation reads the row at integer index
`0 - 1 = -1`, which is out of bounds, so `find` produces no well-defined
result at all (modelled as `none`) instead of an empty page. -/
theorem find_limit_zero_out_of_bounds (records : List (String × String))
    (h : 1 ≤ records.length) :
    findFromRecords (some 0) records = none := by
  have hlen : records.length > 0 := h
  have hneg : ((0 : Nat) : Int) - 1 < 0 := by omega
  simp [findFromRecords, hlen, listGetInt, hneg]

theorem find_limit_zero_out_of_bounds_witness :
    1 ≤ ([("k", "v")] : List (String × String)).length ∧
    findFromRecords (some 0) [("k", "v")] = none :=
  ⟨by decide, find_limit_zero_out_of_bounds [("k", "v")] (by decide)⟩

/-- Claim C1 counterexample: the claim quantifies over every numeric limit,
but at limit 0 with one returned row `find` does not return the first 0 rows
with a cursor — the cursor computation reads index -1 and the call produces
no result at all. -/
theorem find_limit_zero_counterexample :
    findFromRecords (some 0) [("a", "x")] = none := by decide

/-- Claim C1 (amended: limit at least 1): with a numeric limit `L ≥ 1` the
scan SQL is suffixed with `LIMIT L + 1`; if the executor returns more than
`L` rows, `find` returns exactly the first `L` rows and a cursor equal to
the key of the row at index `L - 1` — the last row of the returned page;
otherwise it returns all rows with a null cursor; and without a limit it
returns all rows with a null cursor. -/
theorem find_overfetch_pagination (table : String) (filters : StoreFilters V)
    (c : Option String) (f : Option (List (String × List (String × V))))
    (L : Nat) (records : List (String × String)) (hL : 1 ≤ L) :
    (findSql table filters { cursor := c, limit := some L, filter := f } =
      findSql table filters { cursor := c, limit := none, filter := f } ++
        " LIMIT " ++ toString (L + 1)) ∧
    (L < records.length →
      ∃ r, records.get? (L - 1) = some r ∧
        (records.take L).getLast? = some r ∧
        findFromRecords (some L) records =
          some { cursor := some r.1, edges := records.take L,
                 items := (records.take L).map Prod.snd }) ∧
    (records.length ≤ L →
      findFromRecords (some L) records =
        some { cursor := none, edges := records,
               items := records.map Prod.snd }) ∧
    (findFromRecords none records =
      some { cursor := none, edges := records, items := records.map Prod.snd }) := by
  refine ⟨?_, ?_, ?_, rfl⟩
  · have hw : findWhereParams filters { cursor := c, limit := some L, filter := f } =
        findWhereParams filters { cursor := c, limit := none, filter := f } := rfl
    simp only [findSql, limitSuffix, hw]
    simp [String.append_assoc]
    congr 1
  · intro h2
    have hne : records.get? (L - 1) ≠ none := by
      rw [Ne, List.get?_eq_none]; omega
    obtain ⟨r, hr⟩ := Option.ne_none_iff_exists'.mp hne
    have hpos : ¬ ((L : Int) - 1 < 0) := by omega
    have htoNat : ((L : Int) - 1).toNat = L - 1 := by omega
    have hr2 : records[L - 1]? = some r := by
      simpa [List.get?_eq_getElem?] using hr
    refine ⟨r, hr, ?_, ?_⟩
    · rw [List.getLast?_eq_getElem?, List.length_take]
      have hmin : min L records.length = L := by omega
      rw [hmin, List.getElem?_take_of_lt (by omega)]
      exact hr2
    · simp [findFromRecords, h2, listGetInt, hpos, htoNat, hr2]
  · intro h3
    have hnot : ¬ records.length > L := by omega
    simp [findFromRecords, hnot, List.take_of_length_le h3]

theorem find_overfetch_pagination_witness :
    1 ≤ 1 ∧
    findFromRecords (some 1) [("a", "x"), ("b", "y")] =
      some { cursor := some "a", edges := [("a", "x")], items := ["x"] } := by
  refine ⟨by decide, ?_⟩
  obtain ⟨r, hr, -, hres⟩ :=
    (find_overfetch_pagination "users" ([] : StoreFilters Int) none none 1
      [("a", "x"), ("b", "y")] (by decide)).2.1 (by decide)
  have hr2 : r = ("a", "x") := by
    have := hr.symm
    simpa using this
  rw [hr2] at hres
  simpa using hres

end ClaimTheorems

section FindWhereClaim

variable {V : Type}

/-- From the claim: the clause results of the active (declared-field,
defined-comparator) pairs of a query filter, in declaration order — a
declared field present in the filter contributes, per declared comparator
whose value is defined, that clause function's result; everything else
contributes nothing. -/
def pairActive (qf : List (String × List (String × V)))
    (filters : List (String × List (String × (V → FilterClauseResult)))) :
    List FilterClauseResult :=
  match filters with
  | [] => []
  | fc :: t =>
    (match List.lookup fc.1 qf with
     | none => []
     | some entry =>
       fc.2.filterMap fun cc => (List.lookup cc.1 entry).map cc.2) ++
    pairActive qf t

/-- From the claim: all active clause results of a query's filter (an absent
filter activates nothing). -/
def activeClauseResults (filters : StoreFilters V)
    (qfilter : Option (List (String × List (String × V)))) :
    List FilterClauseResult :=
  match qfilter with
  | none => []
  | some qf => pairActive qf filters

/-- From the claim: the WHERE fragments of the active pairs. -/
def activeWhereList (filters : StoreFilters V)
    (qfilter : Option (List (String × List (String × V)))) : List String :=
  (activeClauseResults filters qfilter).map FilterClauseResult.whereSql

/-- From the claim: the bound parameters of the active pairs. -/
def activeParameters (filters : StoreFilters V)
    (qfilter : Option (List (String × List (String × V)))) :
    List SqlParameter :=
  (activeClauseResults filters qfilter).flatMap FilterClauseResult.parameters

theorem findComparatorStep_foldl (entry : List (String × V))
    (l : List (String × (V → FilterClauseResult)))
    (acc : List String × List SqlParameter) :
    l.foldl (findComparatorStep entry) acc =
      (acc.1 ++ (l.filterMap fun cc =>
        (List.lookup cc.1 entry).map cc.2).map FilterClauseResult.whereSql,
       acc.2 ++ (l.filterMap fun cc =>
        (List.lookup cc.1 entry).map cc.2).flatMap FilterClauseResult.parameters) := by
  induction l generalizing acc with
  | nil => simp
  | cons a t ih =>
    cases h : List.lookup a.1 entry with
    | none => simp [findComparatorStep, h, ih]
    | some v => simp [findComparatorStep, h, ih]

theorem findFilterStep_foldl (qf : List (String × List (String × V)))
    (fl : List (String × List (String × (V → FilterClauseResult))))
    (acc : List String × List SqlParameter) :
    List.foldl (findFilterStep qf) acc fl =
      (acc.1 ++ (pairActive qf fl).map FilterClauseResult.whereSql,
       acc.2 ++ (pairActive qf fl).flatMap FilterClauseResult.parameters) := by
  induction fl generalizing acc with
  | nil => simp [pairActive]
  | cons fc t ih =>
    cases h : List.lookup fc.1 qf with
    | none => simp [findFilterStep, pairActive, h, ih]
    | some entry =>
      simp [findFilterStep, pairActive, h, ih, findComparatorStep_foldl]

theorem findWhereParams_eq (filters : StoreFilters V) (q : FindQuery V) :
    findWhereParams filters q =
      ((findCursorParts q.cursor).1 ++ activeWhereList filters q.filter,
       (findCursorParts q.cursor).2 ++ activeParameters filters q.filter) := by
  cases hf : q.filter with
  | none =>
    simp [findWhereParams, hf, activeWhereList, activeParameters,
      activeClauseResults]
  | some qf =>
    simp [findWhereParams, hf, findFilterStep_foldl, activeWhereList,
      activeParameters, activeClauseResults]

theorem pairActive_undeclared (filters : StoreFilters V) (g : String)
    (entry : List (String × V)) (qf : List (String × List (String × V)))
    (hg : g ∉ List.map Prod.fst filters) :
    pairActive ((g, entry) :: qf) filters = pairActive qf filters := by
  induction filters with
  | nil => rfl
  | cons fc t ih =>
    have hne : fc.1 ≠ g := by
      intro h
      exact hg (by simp [h])
    have hlk : List.lookup fc.1 ((g, entry) :: qf) = List.lookup fc.1 qf := by
      simp [List.lookup_cons, beq_false_of_ne hne]
    have ht : g ∉ List.map Prod.fst t := fun h => hg (by simp [h])
    simp [pairActive, hlk, ih ht]

/-- Claim C4: the WHERE fragment list `find` builds is the cursor clause
(when active) followed by exactly one fragment per active (declared-field,
defined-comparator) pair, in declaration order, and the bound parameters
likewise — absent or undefined comparators contribute no clause and no
parameter; the SQL text joins the fragments with " AND " after WHERE; and a
query filter field not declared in the adapter's filter collection changes
neither the SQL nor the parameters — it is silently ignored, never an
error. -/
theorem find_where_active_conjunction (table : String)
    (filters : StoreFilters V) (q : FindQuery V) (g : String)
    (entry : List (String × V)) (qf : List (String × List (String × V)))
    (hg : g ∉ List.map Prod.fst filters) :
    ((findWhereParams filters q).1 =
      (findCursorParts q.cursor).1 ++ activeWhereList filters q.filter) ∧
    ((findWhereParams filters q).2 =
      (findCursorParts q.cursor).2 ++ activeParameters filters q.filter) ∧
    ((findWhereParams filters q).1 ≠ [] →
      findSql table filters q =
        "SELECT key,item FROM \"" ++ table ++ "\"" ++ " WHERE " ++
          String.intercalate " AND " (findWhereParams filters q).1 ++
          " ORDER BY key" ++ limitSuffix q.limit) ∧
    (findRequest table filters { q with filter := some ((g, entry) :: qf) } =
      findRequest table filters { q with filter := some qf }) := by
  refine ⟨?_, ?_, ?_, ?_⟩
  · rw [findWhereParams_eq]
  · rw [findWhereParams_eq]
  · intro h
    have hlen : (findWhereParams filters q).1.length ≠ 0 := by
      simpa [List.length_eq_zero] using h
    simp [findSql, hlen, String.append_assoc]
  · have ha := pairActive_undeclared filters g entry qf hg
    simp [findRequest, findSql, findWhereParams_eq, activeWhereList,
      activeParameters, activeClauseResults, ha]

/-- A concrete clause function for the witness fixture. -/
def demoClause : Int → FilterClauseResult := fun v =>
  { whereSql := "\"name\" = :name__eq",
    parameters := [{ name := "name__eq", value := .longValue v }] }

/-- A concrete declared filter collection for the witness fixture. -/
def demoFilters : StoreFilters Int := [("name", [("eq", demoClause)])]

/-- A concrete query for the witness fixture. -/
def demoQuery : FindQuery Int :=
  { cursor := some "c0", limit := some 2,
    filter := some [("name", [("eq", 5)])] }

theorem find_where_active_conjunction_witness :
    ("ghost" ∉ List.map Prod.fst demoFilters) ∧
    ((findWhereParams demoFilters demoQuery).1 =
      (findCursorParts demoQuery.cursor).1 ++
        activeWhereList demoFilters demoQuery.filter) ∧
    (findRequest "users" demoFilters
        { demoQuery with filter := some (("ghost", [("eq", 7)]) :: [("name", [("eq", 5)])]) } =
      findRequest "users" demoFilters
        { demoQuery with filter := some [("name", [("eq", 5)])] }) := by
  have h := find_where_active_conjunction "users" demoFilters demoQuery
    "ghost" [("eq", 7)] [("name", [("eq", 5)])] (by decide)
  exact ⟨by decide, h.1, h.2.2.2⟩

end FindWhereClaim

section GetManyClaim

/-- The rows of an executor response that can enter `getMany`'s lookup: both
fields present with non-empty (truthy) string values, in response order. -/
def validRows (records : List (Option String × Option String)) :
    List (String × String) :=
  records.filterMap fun row =>
    match row with
    | (some k, some v) => if k ≠ "" ∧ v ≠ "" then some (k, v) else none
    | _ => none

/-- From the claim: the decoded item of the returned row whose key equals
`k`, or `none` when no such (valid) returned row exists. -/
def itemForKey (records : List (Option String × Option String))
    (k : String) : Option String :=
  List.lookup k (validRows records)

theorem getManyLookup_foldl_valid
    (records : List (Option String × Option String))
    (f : String → Option String) :
    records.foldl getManyLookupStep f =
      (validRows records).foldl
        (fun lookup p => fun x => if x = p.1 then some p.2 else lookup x) f := by
  induction records generalizing f with
  | nil => rfl
  | cons row t ih =>
    obtain ⟨k, v⟩ := row
    cases k with
    | none => simp [getManyLookupStep, validRows, List.filterMap_cons, ih]
    | some ks =>
      cases v with
      | none => simp [getManyLookupStep, validRows, List.filterMap_cons, ih]
      | some vs =>
        by_cases h : ks ≠ "" ∧ vs ≠ ""
        · simp only [validRows, List.filterMap_cons] at *
          simp [getManyLookupStep, h, ih, List.foldl_cons]
        · simp only [validRows, List.filterMap_cons] at *
          simp [getManyLookupStep, h, ih]

theorem lookup_none_of_not_mem_keys (l : List (String × String)) (x : String)
    (hx : x ∉ l.map Prod.fst) : List.lookup x l = none := by
  induction l with
  | nil => rfl
  | cons p t ih =>
    have h1 : x ≠ p.1 := fun h => hx (by simp [h])
    obtain ⟨pk, pv⟩ := p
    simp only [List.lookup_cons, beq_false_of_ne h1]
    exact ih fun h => hx (by simp [h])

theorem overwrite_foldl_lookup (l : List (String × String))
    (f : String → Option String) (x : String)
    (hnd : (l.map Prod.fst).Nodup) :
    l.foldl (fun lookup p => fun x => if x = p.1 then some p.2 else lookup x)
        f x =
      match List.lookup x l with
      | some v => some v
      | none => f x := by
  induction l generalizing f with
  | nil => simp
  | cons p t ih =>
    obtain ⟨pk, pv⟩ := p
    have hnd2 : (t.map Prod.fst).Nodup := (List.nodup_cons.mp (by simpa using hnd)).2
    have hp : pk ∉ t.map Prod.fst := (List.nodup_cons.mp (by simpa using hnd)).1
    rw [List.foldl_cons, ih _ hnd2]
    by_cases hx : x = pk
    · subst hx
      rw [lookup_none_of_not_mem_keys t x hp]
      simp [List.lookup_cons]
    · simp [List.lookup_cons, beq_false_of_ne hx, hx]

theorem lookup_eq_some_iff_mem (l : List (String × String))
    (hnd : (l.map Prod.fst).Nodup) (x : String) (v : String) :
    List.lookup x l = some v ↔ (x, v) ∈ l := by
  induction l with
  | nil => simp
  | cons p t ih =>
    obtain ⟨pk, pv⟩ := p
    have hnd2 : (t.map Prod.fst).Nodup := (List.nodup_cons.mp (by simpa using hnd)).2
    have hp : pk ∉ t.map Prod.fst := (List.nodup_cons.mp (by simpa using hnd)).1
    by_cases hx : x = pk
    · subst hx
      have hnot : (x, v) ∉ t := fun h => hp (by
        simpa using List.mem_map_of_mem Prod.fst h)
      simp [List.lookup_cons, hnot, eq_comm]
    · simp [List.lookup_cons, beq_false_of_ne hx, hx, ih hnd2]

theorem lookup_perm_eq (l1 l2 : List (String × String)) (hperm : l1.Perm l2)
    (hnd : (l1.map Prod.fst).Nodup) (x : String) :
    List.lookup x l1 = List.lookup x l2 := by
  have hnd2 : (l2.map Prod.fst).Nodup := ((hperm.map Prod.fst).nodup_iff).mp hnd
  cases h1 : List.lookup x l1 with
  | some v =>
    have hm := (lookup_eq_some_iff_mem l1 hnd x v).mp h1
    exact ((lookup_eq_some_iff_mem l2 hnd2 x v).mpr (hperm.mem_iff.mp hm)).symm
  | none =>
    cases h2 : List.lookup x l2 with
    | none => rfl
    | some v =>
      have hm := (lookup_eq_some_iff_mem l2 hnd2 x v).mp h2
      have hm1 := hperm.mem_iff.mpr hm
      have hc := (lookup_eq_some_iff_mem l1 hnd x v).mpr hm1
      rw [h1] at hc
      cases hc

theorem getManyLookup_eq_itemForKey
    (records : List (Option String × Option String))
    (hnd : ((validRows records).map Prod.fst).Nodup) (x : String) :
    getManyLookup records x = itemForKey records x := by
  rw [getManyLookup, getManyLookup_foldl_valid,
    overwrite_foldl_lookup _ _ _ hnd]
  cases h : List.lookup x (validRows records) <;> simp [itemForKey, h]

/-- Claim C3 counterexample: for the input keys `[""]` the executor returns
the row with key `""` and item text `"1"`, and that row's key equals the
0-th input key, yet `getMany` resolves position 0 with the absent marker:
the truthiness check `key?.stringValue && item?.stringValue` silently drops
rows whose key is the empty string. -/
theorem getMany_empty_key_counterexample :
    getManyResult [""] (some [(some "", some "1")]) = [none] ∧
    [none] ≠ [some "1"] := by
  exact ⟨rfl, by decide⟩

/-- Claim C3 (amended: for executor row sets whose valid rows — rows with
both string values present and non-empty — have pairwise distinct keys, as
rows of a primary-keyed table do; rows with an empty key or item text, or
missing string values, are dropped and count as absent): `getMany` binds
exactly one positionally named parameter per input key, in input order; its
result has exactly the input's length; position j holds the item of the
valid returned row whose key equals the j-th input key, or the absent
marker; and the result is unchanged under any permutation of the returned
rows. -/
theorem getManyParameters_names (keys : List String) (n : Nat) :
    ((List.enumFrom n keys).map fun p =>
      SqlParameter.name
        { name := "key" ++ toString p.1, value := .stringValue p.2 }) =
      (List.range' n keys.length).map fun i => "key" ++ toString i := by
  induction keys generalizing n with
  | nil => rfl
  | cons k t ih => simp [List.enumFrom_cons, List.range'_succ, ih]

theorem getManyParameters_values (keys : List String) (n : Nat) :
    ((List.enumFrom n keys).map fun p =>
      SqlParameter.value
        { name := "key" ++ toString p.1, value := .stringValue p.2 }) =
      keys.map AuroraField.stringValue := by
  induction keys generalizing n with
  | nil => rfl
  | cons k t ih => simp [List.enumFrom_cons, ih]

theorem getMany_positional_alignment (keys : List String)
    (records records2 : List (Option String × Option String))
    (hnd : ((validRows records).map Prod.fst).Nodup)
    (hperm : records.Perm records2) :
    ((getManyParameters keys).map SqlParameter.name =
      (List.range keys.length).map fun i => "key" ++ toString i) ∧
    ((getManyParameters keys).map SqlParameter.value =
      keys.map AuroraField.stringValue) ∧
    ((getManyResult keys (some records)).length = keys.length) ∧
    (getManyResult keys (some records) = keys.map (itemForKey records)) ∧
    (getManyResult keys (some records2) = getManyResult keys (some records)) := by
  refine ⟨?_, ?_, ?_, ?_, ?_⟩
  · rw [getManyParameters, List.enum, List.map_map, List.range_eq_range']
    exact getManyParameters_names keys 0
  · rw [getManyParameters, List.enum, List.map_map]
    exact getManyParameters_values keys 0
  · simp [getManyResult]
  · simp only [getManyResult]
    exact List.map_congr_left fun k _ => getManyLookup_eq_itemForKey records hnd k
  · have hnd2 : ((validRows records2).map Prod.fst).Nodup :=
      (((hperm.filterMap _).map Prod.fst).nodup_iff).mp hnd
    have hvperm : (validRows records).Perm (validRows records2) :=
      hperm.filterMap _
    simp only [getManyResult]
    refine List.map_congr_left fun k _ => ?_
    rw [getManyLookup_eq_itemForKey records hnd k,
      getManyLookup_eq_itemForKey records2 hnd2 k]
    exact (lookup_perm_eq _ _ hvperm hnd k).symm

theorem getMany_positional_alignment_witness :
    (((validRows [(some "b", some "2"), (some "a", some "1")]).map
        Prod.fst).Nodup) ∧
    (([(some "b", some "2"), (some "a", some "1")] :
        List (Option String × Option String)).Perm
      [(some "a", some "1"), (some "b", some "2")]) ∧
    (getManyResult ["a", "b", "c"]
        (some [(some "b", some "2"), (some "a", some "1")]) =
      ["a", "b", "c"].map
        (itemForKey [(some "b", some "2"), (some "a", some "1")])) ∧
    (getManyResult ["a", "b", "c"]
        (some [(some "a", some "1"), (some "b", some "2")]) =
      getManyResult ["a", "b", "c"]
        (some [(some "b", some "2"), (some "a", some "1")])) := by
  have h := getMany_positional_alignment ["a", "b", "c"]
    [(some "b", some "2"), (some "a", some "1")]
    [(some "a", some "1"), (some "b", some "2")]
    (by decide) (by decide)
  exact ⟨by decide, by decide, h.2.2.2.1, h.2.2.2.2⟩

end GetManyClaim

end AuroraStore
